import Mathlib

/-!
Verification development for the per-symbol analysis cache of the
GOLDUSD-CRASH-Agent repository (src/cache_manager.py, with the Oracle layer
of src/agent.py treated as an external capability).  Python strings are
modelled as Lean strings; the inline string processing of
update_symbol_data is factored into the extract_trend / extract_limit
functions below, each a faithful translation of the corresponding Python
expressions; exceptions are modelled with Except.
-/

instance {ε α : Type} [DecidableEq ε] [DecidableEq α] : DecidableEq (Except ε α) := fun a b =>
  match a, b with
  | Except.error e1, Except.error e2 =>
    if h : e1 = e2 then Decidable.isTrue (by rw [h])
    else Decidable.isFalse (by intro hc; cases hc; exact h rfl)
  | Except.error _, Except.ok _ => Decidable.isFalse (by intro hc; cases hc)
  | Except.ok _, Except.error _ => Decidable.isFalse (by intro hc; cases hc)
  | Except.ok a1, Except.ok a2 =>
    if h : a1 = a2 then Decidable.isTrue (by rw [h])
    else Decidable.isFalse (by intro hc; cases hc; exact h rfl)

/-- Python str.isspace for the characters str.split() splits on. -/
def pyIsSpace (c : Char) : Bool :=
  c == ' ' || c == '\t' || c == '\n' || c == '\r' || c == Char.ofNat 11 || c == Char.ofNat 12

/-- ASCII lower-casing of one character, as Python str.lower does on ASCII text. -/
def pyLowerChar (c : Char) : Char :=
  if 'A' ≤ c ∧ c ≤ 'Z' then Char.ofNat (c.toNat + 32) else c

/-- Python str.lower on a character list. -/
def pyLower (l : List Char) : List Char := l.map pyLowerChar

/-- Python str.strip with no argument: remove leading and trailing whitespace. -/
def pyStrip (l : List Char) : List Char :=
  ((l.dropWhile pyIsSpace).reverse.dropWhile pyIsSpace).reverse

/-- Boolean list-prefix test on character lists. -/
def isPrefixOfCL : List Char → List Char → Bool
  | [], _ => true
  | _ :: _, [] => false
  | a :: as, b :: bs => a == b && isPrefixOfCL as bs

/-- The suffix of a character list following the first occurrence of sep,
or none when sep does not occur. -/
def afterFirst (sep : List Char) : List Char → Option (List Char)
  | [] => if isPrefixOfCL sep [] then some (List.drop sep.length []) else none
  | c :: rest =>
    if isPrefixOfCL sep (c :: rest) then some (List.drop sep.length (c :: rest))
    else afterFirst sep rest

/-- The prefix of a character list strictly before the first occurrence of sep
(the whole list when sep does not occur). -/
def beforeFirst (sep : List Char) : List Char → List Char
  | [] => []
  | c :: rest => if isPrefixOfCL sep (c :: rest) then [] else c :: beforeFirst sep rest

/-- Python substring containment, the `sep in s` test. -/
def containsSub (sep l : List Char) : Bool := (afterFirst sep l).isSome

/-- Fuelled worker for splitSub.  The fuel supplied by splitSub always
suffices for a non-empty separator, since each recursive step consumes at
least one character of the input. -/
def splitSubAux (sep : List Char) : Nat → List Char → List (List Char)
  | 0, l => [l]
  | fuel + 1, l =>
    match afterFirst sep l with
    | none => [l]
    | some rest => beforeFirst sep l :: splitSubAux sep fuel rest

/-- Python str.split(sep): cut at each non-overlapping occurrence of sep,
scanning left to right. -/
def splitSub (sep l : List Char) : List (List Char) := splitSubAux sep (l.length + 1) l

/-- Fuelled worker for tokens. -/
def tokensAux : Nat → List Char → List (List Char)
  | 0, _ => []
  | fuel + 1, l =>
    match l.dropWhile pyIsSpace with
    | [] => []
    | c :: rest =>
      ((c :: rest).takeWhile (fun d => !(pyIsSpace d))) ::
        tokensAux fuel ((c :: rest).dropWhile (fun d => !(pyIsSpace d)))

/-- Python str.split() with no argument: the maximal whitespace-free tokens,
with no empty pieces. -/
def tokens (l : List Char) : List (List Char) := tokensAux l.length l

/-- Python list indexing, where an out-of-range index raises IndexError. -/
def nthPiece : List (List Char) → Nat → Except String (List Char)
  | [], _ => Except.error "IndexError"
  | x :: _, 0 => Except.ok x
  | _ :: xs, n + 1 => nthPiece xs n

/-- The literal marker TREND: used by update_symbol_data. -/
def trendMarker : List Char := ['T', 'R', 'E', 'N', 'D', ':']

/-- The literal marker LIMIT: used by update_symbol_data. -/
def limitMarker : List Char := ['L', 'I', 'M', 'I', 'T', ':']

/-- The trend extraction of cache_manager.update_symbol_data lines 75-77:
trend = "unknown"; if "TREND:" in r: trend = r.split("TREND:")[1].strip().split()[0].lower(). -/
def extract_trend (trend_result : String) : Except String String :=
  if containsSub trendMarker trend_result.data then
    match nthPiece (splitSub trendMarker trend_result.data) 1 with
    | Except.error e => Except.error e
    | Except.ok seg =>
      match nthPiece (tokens (pyStrip seg)) 0 with
      | Except.error e => Except.error e
      | Except.ok tok => Except.ok (String.mk (pyLower tok))
  else Except.ok "unknown"

/-- The limit extraction of cache_manager.update_symbol_data lines 79-85:
limit = "N/A"; if "LIMIT:" in r: limit = r.split("LIMIT:")[1].strip().split()[0]. -/
def extract_limit (limit_result : String) : Except String String :=
  if containsSub limitMarker limit_result.data then
    match nthPiece (splitSub limitMarker limit_result.data) 1 with
    | Except.error e => Except.error e
    | Except.ok seg =>
      match nthPiece (tokens (pyStrip seg)) 0 with
      | Except.error e => Except.error e
      | Except.ok tok => Except.ok (String.mk tok)
  else Except.ok "N/A"

/-- Gregorian leap-year test, as datetime uses. -/
def isLeapYear (y : Nat) : Bool := (y % 4 == 0 && y % 100 != 0) || (y % 400 == 0)

/-- Length of month m of year y. -/
def daysInMonth (y m : Nat) : Nat :=
  if m == 2 then (if isLeapYear y then 29 else 28)
  else if m == 4 || m == 6 || m == 9 || m == 11 then 30
  else 31

/-- Days of year y that precede the first day of month m. -/
def daysBeforeMonth (y m : Nat) : Nat :=
  let base : Nat :=
    match m with
    | 1 => 0 | 2 => 31 | 3 => 59 | 4 => 90 | 5 => 120 | 6 => 151
    | 7 => 181 | 8 => 212 | 9 => 243 | 10 => 273 | 11 => 304 | _ => 334
  if 3 ≤ m ∧ isLeapYear y then base + 1 else base

/-- Microseconds from 0001-01-01T00:00:00 to the given civil instant. -/
def toEpochMicros (y mo d h mi s frac : Nat) : Nat :=
  let days := 365 * (y - 1) + (y - 1) / 4 - (y - 1) / 100 + (y - 1) / 400
    + daysBeforeMonth y mo + (d - 1)
  (((days * 24 + h) * 60 + mi) * 60 + s) * 1000000 + frac

/-- Numeric value of a decimal digit character, none for a non-digit. -/
def digitVal (c : Char) : Option Nat := if c.isDigit then some (c.toNat - 48) else none

/-- Two decimal digit characters as a number. -/
def d2 (a b : Char) : Option Nat := do
  let x ← digitVal a
  let y ← digitVal b
  pure (10 * x + y)

/-- Four decimal digit characters as a number. -/
def d4 (a b c d : Char) : Option Nat := do
  let x ← d2 a b
  let y ← d2 c d
  pure (100 * x + y)

/-- Fractional-second part of an ISO timestamp (empty, or a dot followed by
one to six digits), in microseconds. -/
def parseFrac : List Char → Option Nat
  | [] => some 0
  | '.' :: ds =>
    if ds.length != 0 && decide (ds.length ≤ 6) && ds.all Char.isDigit then
      some ((ds.foldl (fun acc c => 10 * acc + (c.toNat - 48)) 0) * 10 ^ (6 - ds.length))
    else none
  | _ => none

/-- Model of datetime.fromisoformat restricted to the timestamps this program
itself writes with datetime.now().isoformat(): YYYY-MM-DD, a one-character
separator, HH:MM:SS, and an optional fractional-second part.  Field ranges are
validated as datetime does; the result is the instant in microseconds, and
none models the ValueError raised on malformed input. -/
def parseIsoTimestamp (ts : String) : Option Nat :=
  match ts.data with
  | y1 :: y2 :: y3 :: y4 :: c1 :: m1 :: m2 :: c2 :: dd1 :: dd2 :: _sep ::
      h1 :: h2 :: c3 :: mi1 :: mi2 :: c4 :: s1 :: s2 :: rest =>
    if c1 = '-' ∧ c2 = '-' ∧ c3 = ':' ∧ c4 = ':' then
      match d4 y1 y2 y3 y4, d2 m1 m2, d2 dd1 dd2, d2 h1 h2, d2 mi1 mi2, d2 s1 s2,
          parseFrac rest with
      | some y, some mo, some d, some h, some mi, some s, some frac =>
        if 1 ≤ y ∧ 1 ≤ mo ∧ mo ≤ 12 ∧ 1 ≤ d ∧ d ≤ daysInMonth y mo ∧
            h ≤ 23 ∧ mi ≤ 59 ∧ s ≤ 59 then
          some (toEpochMicros y mo d h mi s frac)
        else none
      | _, _, _, _, _, _, _ => none
    else none
  | _ => none

/-- One hour in microseconds, the timedelta(hours=1) staleness bound. -/
def hourMicros : Int := 3600000000

/-- The three raw Oracle texts retained in a record. -/
structure RawResponses where
  trend : String
  lower_limit : String
  upper_limit : String
deriving DecidableEq

/-- One per-symbol analysis record, a JSON object whose keys may each be
absent (absence is modelled by none); records built by update_symbol_data
have every field present. -/
structure SymbolRecord where
  timestamp : Option String
  symbol : Option String
  trend : Option String
  lower_limit : Option String
  upper_limit : Option String
  raw_responses : Option RawResponses
deriving DecidableEq

/-- The persisted root document of the cache file. -/
structure CacheDocument where
  last_updated : Option String
  symbols : List (String × SymbolRecord)
deriving DecidableEq

/-- The state of the backing cache file: absent, unreadable, a legacy
single-symbol document (a JSON object with no symbols key), or the current
symbols-keyed format. -/
inductive StoredFile where
  | missing
  | corrupt
  | legacy (old : SymbolRecord)
  | modern (doc : CacheDocument)
deriving DecidableEq

/-- The analysis kinds of the agent layer. -/
inductive AnalysisKind where
  | Trend
  | LowerLimit
  | UpperLimit
  | General
deriving DecidableEq

/-- The external Oracle capability: run_trend_analysis,
run_lower_limit_analysis and run_upper_limit_analysis of agent.py, each of
which returns raw text or raises. -/
abbrev Oracle := AnalysisKind → String → Except String String

/-- The empty document returned by load_cache on a missing or unreadable file. -/
def emptyDoc : CacheDocument := { last_updated := none, symbols := [] }

/-- Python dict lookup on the symbols mapping. -/
def lookupSym : List (String × SymbolRecord) → String → Option SymbolRecord
  | [], _ => none
  | (k, v) :: rest, s => if k == s then some v else lookupSym rest s

/-- Python dict assignment on the symbols mapping: replace the value of an
existing key in place, or append a new key at the end. -/
def upsertSym : List (String × SymbolRecord) → String → SymbolRecord → List (String × SymbolRecord)
  | [], k, v => [(k, v)]
  | (k0, v0) :: rest, k, v =>
    if k0 == k then (k0, v) :: rest else (k0, v0) :: upsertSym rest k v

/-- cache_manager.save_cache: stamp last_updated with the current time and
rewrite the whole backing file.  Returns the stamped document (Python mutates
the caller's dict in place) and the new file state. -/
def save_cache (nowS : String) (doc : CacheDocument) : CacheDocument × StoredFile :=
  let doc2 := { doc with last_updated := some nowS }
  (doc2, StoredFile.modern doc2)

/-- cache_manager.load_cache: read the backing document; on a missing or
unreadable file return the empty document; migrate a legacy document to the
symbols-keyed format under key GOLDUSD and persist the migrated form. -/
def load_cache (nowS : String) (file : StoredFile) : CacheDocument × StoredFile :=
  match file with
  | StoredFile.missing => (emptyDoc, file)
  | StoredFile.corrupt => (emptyDoc, file)
  | StoredFile.modern doc => (doc, file)
  | StoredFile.legacy old =>
    let migrated : CacheDocument :=
      { last_updated := some (old.timestamp.getD nowS), symbols := [("GOLDUSD", old)] }
    save_cache nowS migrated

/-- cache_manager.is_symbol_cache_valid: false for an absent record or absent
timestamp key, false when the timestamp does not parse, and otherwise the
test now - timestamp < 1 hour.  now is the current instant in microseconds. -/
def is_symbol_cache_valid (symbol_data : Option SymbolRecord) (now : Nat) : Bool :=
  match symbol_data with
  | none => false
  | some r =>
    match r.timestamp with
    | none => false
    | some ts =>
      match parseIsoTimestamp ts with
      | none => false
      | some t => decide ((now : Int) - (t : Int) < hourMicros)

/-- Result of update_symbol_data: the returned record (none models the
Python None returned when an exception was caught), the file state after the
call, and the Oracle invocations made, in order. -/
structure UpdateResult where
  record : Option SymbolRecord
  file : StoredFile
  calls : List AnalysisKind
deriving DecidableEq

/-- The symbol_data dict literal built at lines 88-99 of update_symbol_data. -/
def mkRecord (nowS symbol trend lower_limit upper_limit
    trend_result lower_result upper_result : String) : SymbolRecord :=
  { timestamp := some nowS, symbol := some symbol, trend := some trend,
    lower_limit := some lower_limit, upper_limit := some upper_limit,
    raw_responses := some
      { trend := trend_result, lower_limit := lower_result,
        upper_limit := upper_result } }

/-- cache_manager.update_symbol_data: run the three Oracle analyses, extract
the structured fields, build a fresh record, and write it through the store.
The single try/except of the source wraps all of this, so any raising Oracle
call or raising extraction makes the function return None with the file
untouched. -/
def update_symbol_data (oracle : Oracle) (nowS : String) (file : StoredFile)
    (symbol : String) : UpdateResult :=
  match oracle AnalysisKind.Trend symbol with
  | Except.error _ => { record := none, file := file, calls := [AnalysisKind.Trend] }
  | Except.ok trend_result =>
    match oracle AnalysisKind.LowerLimit symbol with
    | Except.error _ =>
      { record := none, file := file, calls := [AnalysisKind.Trend, AnalysisKind.LowerLimit] }
    | Except.ok lower_result =>
      match oracle AnalysisKind.UpperLimit symbol with
      | Except.error _ =>
        { record := none, file := file,
          calls := [AnalysisKind.Trend, AnalysisKind.LowerLimit, AnalysisKind.UpperLimit] }
      | Except.ok upper_result =>
        match extract_trend trend_result with
        | Except.error _ =>
          { record := none, file := file,
            calls := [AnalysisKind.Trend, AnalysisKind.LowerLimit, AnalysisKind.UpperLimit] }
        | Except.ok trend =>
          match extract_limit lower_result with
          | Except.error _ =>
            { record := none, file := file,
              calls := [AnalysisKind.Trend, AnalysisKind.LowerLimit, AnalysisKind.UpperLimit] }
          | Except.ok lower_limit =>
            match extract_limit upper_result with
            | Except.error _ =>
              { record := none, file := file,
                calls := [AnalysisKind.Trend, AnalysisKind.LowerLimit, AnalysisKind.UpperLimit] }
            | Except.ok upper_limit =>
              let symbol_data : SymbolRecord :=
                mkRecord nowS symbol trend lower_limit upper_limit
                  trend_result lower_result upper_result
              let loaded := load_cache nowS file
              let newDoc :=
                { loaded.1 with symbols := upsertSym loaded.1.symbols symbol symbol_data }
              let saved := save_cache nowS newDoc
              { record := some symbol_data, file := saved.2,
                calls := [AnalysisKind.Trend, AnalysisKind.LowerLimit, AnalysisKind.UpperLimit] }

/-- Result of get_symbol_data_cached, with the same reading as UpdateResult. -/
structure GetResult where
  record : Option SymbolRecord
  file : StoredFile
  calls : List AnalysisKind
deriving DecidableEq

/-- cache_manager.get_symbol_data_cached: load the document, look the symbol
up exactly as given, return the record on a validity hit, and otherwise
delegate to update_symbol_data. -/
def get_symbol_data_cached (oracle : Oracle) (now : Nat) (nowS : String)
    (file : StoredFile) (symbol : String) : GetResult :=
  let loaded := load_cache nowS file
  let symbol_data := lookupSym loaded.1.symbols symbol
  if is_symbol_cache_valid symbol_data now then
    { record := symbol_data, file := loaded.2, calls := [] }
  else
    let u := update_symbol_data oracle nowS loaded.2 symbol
    { record := u.record, file := u.file, calls := u.calls }

/-- The refresh loop of update_all_symbols, threading the file state. -/
def refreshLoop (oracle : Oracle) (nowS : String) : List String → StoredFile → StoredFile
  | [], f => f
  | s :: rest, f => refreshLoop oracle nowS rest (update_symbol_data oracle nowS f s).file

/-- The symbol list the refresh loop of update_all_symbols iterates over:
the tracked keys, with GOLDUSD appended when it is not among them
(lines 122-126 of cache_manager.py). -/
def sweepList (doc : CacheDocument) : List String :=
  let keys := doc.symbols.map Prod.fst
  if keys.contains "GOLDUSD" then keys else keys ++ ["GOLDUSD"]

/-- cache_manager.update_all_symbols: refresh every tracked symbol, with
GOLDUSD appended when it is not tracked.  Also returns the list of symbols
on which update_symbol_data was invoked. -/
def update_all_symbols (oracle : Oracle) (nowS : String) (file : StoredFile) :
    StoredFile × List String :=
  let loaded := load_cache nowS file
  (refreshLoop oracle nowS (sweepList loaded.1) loaded.2, sweepList loaded.1)

/-- The tracked-symbol list a steady-state cycle of hourly_cache_updater
checks: the keys of the loaded document, defaulting to GOLDUSD when the key
set is empty (lines 174-178 of cache_manager.py). -/
def trackedSymbols (doc : CacheDocument) : List String :=
  let keys := doc.symbols.map Prod.fst
  if keys.isEmpty then ["GOLDUSD"] else keys

/-- The staleness check of a steady-state cycle: true when some tracked
symbol fails is_symbol_cache_valid (lines 180-185 of cache_manager.py). -/
def needsUpdate (doc : CacheDocument) (now : Nat) : Bool :=
  (trackedSymbols doc).any (fun s => !(is_symbol_cache_valid (lookupSym doc.symbols s) now))

/-- Result of one steady-state cycle of hourly_cache_updater: the file state
after the cycle and the symbols refreshed during it. -/
structure CycleResult where
  file : StoredFile
  refreshed : List String
deriving DecidableEq

/-- One steady-state cycle of cache_manager.hourly_cache_updater, the body
that runs after each fixed one-hour sleep: reload the document, default the
tracked set to GOLDUSD when empty, and run update_all_symbols when any
tracked symbol fails is_symbol_cache_valid, else do nothing. -/
def hourly_cycle (oracle : Oracle) (now : Nat) (nowS : String) (file : StoredFile) :
    CycleResult :=
  let loaded := load_cache nowS file
  if needsUpdate loaded.1 now then
    let r := update_all_symbols oracle nowS loaded.2
    { file := r.1, refreshed := r.2 }
  else
    { file := loaded.2, refreshed := [] }

/-- Modelled from the spec: the Result Extractor rule for Trend as the spec
words it, namely the first whitespace-delimited token of everything after the
first occurrence of the TREND: marker, lower-cased, with sentinel unknown when
the marker is absent (none when the marker is present but no token follows). -/
def specTrendExtraction (raw : String) : Option String :=
  match afterFirst trendMarker raw.data with
  | none => some "unknown"
  | some rest =>
    match tokens rest with
    | [] => none
    | t :: _ => some (String.mk (pyLower t))

/-- A well-behaved Oracle whose replies follow the documented grammars. -/
def goodOracle : Oracle := fun k _ =>
  match k with
  | AnalysisKind.Trend => Except.ok "TREND: Bullish"
  | AnalysisKind.LowerLimit => Except.ok "LIMIT: $2300.50"
  | AnalysisKind.UpperLimit => Except.ok "LIMIT: $2400.00"
  | AnalysisKind.General => Except.ok ""

/-- An Oracle that raises on the LowerLimit analysis only. -/
def oracleLowerFails : Oracle := fun k s =>
  match k with
  | AnalysisKind.LowerLimit => Except.error "ConnectionError: oracle unavailable"
  | _ => goodOracle k s

/-- An Oracle whose Trend reply carries the marker with no token after it. -/
def oracleBareTrend : Oracle := fun k s =>
  match k with
  | AnalysisKind.Trend => Except.ok "TREND:"
  | _ => goodOracle k s

/-- The reference current instant used by concrete scenarios. -/
def nowIso : String := "2026-10-12T12:00:00"

/-- nowIso in microseconds. -/
def nowMicros : Nat := (parseIsoTimestamp nowIso).getD 0

/-- A record written half an hour before nowIso, hence still valid then. -/
def freshGoldRecord : SymbolRecord :=
  { timestamp := some "2026-10-12T11:30:00", symbol := some "GOLDUSD",
    trend := some "bullish", lower_limit := some "$2300.50",
    upper_limit := some "$2400.00", raw_responses := none }

/-- A document tracking only a fresh GOLDUSD record. -/
def goldDoc : CacheDocument :=
  { last_updated := some "2026-10-12T11:30:00", symbols := [("GOLDUSD", freshGoldRecord)] }

/-- A record for symbol A written fifteen minutes before nowIso (fresh). -/
def freshARecord : SymbolRecord :=
  { timestamp := some "2026-10-12T11:45:00", symbol := some "A",
    trend := some "bullish", lower_limit := some "$1.00",
    upper_limit := some "$2.00", raw_responses := none }

/-- A record for symbol B written three hours before nowIso (stale). -/
def staleBRecord : SymbolRecord :=
  { timestamp := some "2026-10-12T09:00:00", symbol := some "B",
    trend := some "bearish", lower_limit := some "$3.00",
    upper_limit := some "$4.00", raw_responses := none }

/-- A document tracking a fresh A and a stale B. -/
def docAB : CacheDocument :=
  { last_updated := some "2026-10-12T11:45:00",
    symbols := [("A", freshARecord), ("B", staleBRecord)] }

/-- Loading the file state produced by a load is a no-op: the first load
either left the file alone or persisted the migrated modern form. -/
theorem load_cache_idem (n1 n2 : String) (f : StoredFile) :
    load_cache n2 (load_cache n1 f).2 = load_cache n1 f := by
  cases f <;> simp [load_cache, save_cache]

/-- Dict assignment makes the assigned key map to the new value. -/
theorem lookup_upsert_self (m : List (String × SymbolRecord)) (k : String) (v : SymbolRecord) :
    lookupSym (upsertSym m k v) k = some v := by
  induction m with
  | nil => simp [upsertSym, lookupSym]
  | cons p rest ih =>
    obtain ⟨k0, v0⟩ := p
    simp only [upsertSym]
    cases hb : k0 == k with
    | true => simp [lookupSym, hb]
    | false => simp [lookupSym, hb, ih]

/-- Dict assignment leaves the binding of every other key unchanged. -/
theorem lookup_upsert_other (m : List (String × SymbolRecord)) (k : String)
    (v : SymbolRecord) (t : String) (h : t ≠ k) :
    lookupSym (upsertSym m k v) t = lookupSym m t := by
  induction m with
  | nil =>
    have hb : (k == t) = false := beq_eq_false_iff_ne.mpr (Ne.symm h)
    simp [upsertSym, lookupSym, hb]
  | cons p rest ih =>
    obtain ⟨k0, v0⟩ := p
    simp only [upsertSym]
    cases hb : k0 == k with
    | true =>
      have hk : k0 = k := by simpa using hb
      have ht : (k0 == t) = false := beq_eq_false_iff_ne.mpr (hk ▸ Ne.symm h)
      simp [lookupSym, ht]
    | false =>
      simp only [Bool.false_eq_true, if_false, lookupSym]
      cases hkt : k0 == t with
      | true => simp
      | false => simp [ih]

/-- When the separator never occurs, the prefix before its first occurrence
is the whole list. -/
theorem beforeFirst_of_afterFirst_none (sep l : List Char)
    (h : afterFirst sep l = none) : beforeFirst sep l = l := by
  induction l with
  | nil => simp [beforeFirst]
  | cons c rest ih =>
    simp only [afterFirst] at h
    cases hp : isPrefixOfCL sep (c :: rest) with
    | true => simp [hp] at h
    | false =>
      simp only [hp, Bool.false_eq_true, if_false] at h
      simp [beforeFirst, hp, ih h]

/-- One unfolding step of the fuelled split worker. -/
theorem splitSubAux_succ (sep : List Char) (fuel : Nat) (l : List Char) :
    splitSubAux sep (fuel + 1) l =
      match afterFirst sep l with
      | none => [l]
      | some rest => beforeFirst sep l :: splitSubAux sep fuel rest := rfl

/-- With positive fuel, the first split piece is the prefix before the first
occurrence of the separator. -/
theorem nthPiece_splitSubAux_zero (sep : List Char) (fuel : Nat) (l : List Char)
    (hf : 0 < fuel) :
    nthPiece (splitSubAux sep fuel l) 0 = Except.ok (beforeFirst sep l) := by
  cases fuel with
  | zero => omega
  | succ f =>
    rw [splitSubAux_succ]
    cases h : afterFirst sep l with
    | none => simp [nthPiece, beforeFirst_of_afterFirst_none sep l h]
    | some rest => simp [nthPiece]

/-- The second split piece is the text between the first occurrence of the
separator and the next one (or the end of the text). -/
theorem nthPiece_splitSub_one (sep l rest : List Char) (hsep : sep ≠ [])
    (h : afterFirst sep l = some rest) :
    nthPiece (splitSub sep l) 1 = Except.ok (beforeFirst sep rest) := by
  have hl : l ≠ [] := by
    intro he
    subst he
    cases sep with
    | nil => exact hsep rfl
    | cons a as => simp [afterFirst, isPrefixOfCL] at h
  simp only [splitSub]
  rw [splitSubAux_succ, h]
  simp only [nthPiece]
  exact nthPiece_splitSubAux_zero sep l.length rest
    (by cases l with | nil => exact absurd rfl hl | cons c cs => simp)

/-- Trend extraction when the marker is absent. -/
theorem extract_trend_marker_absent (raw : String)
    (h : containsSub trendMarker raw.data = false) :
    extract_trend raw = Except.ok "unknown" := by
  simp [extract_trend, h]

/-- Limit extraction when the marker is absent. -/
theorem extract_limit_marker_absent (raw : String)
    (h : containsSub limitMarker raw.data = false) :
    extract_limit raw = Except.ok "N/A" := by
  simp [extract_limit, h]

/-- Trend extraction when the marker occurs: the result is determined by the
tokens of the stripped segment between the first marker occurrence and the
next one. -/
theorem extract_trend_of_afterFirst (raw : String) (rest : List Char)
    (h : afterFirst trendMarker raw.data = some rest) :
    extract_trend raw =
      (match nthPiece (tokens (pyStrip (beforeFirst trendMarker rest))) 0 with
       | Except.error e => Except.error e
       | Except.ok tok => Except.ok (String.mk (pyLower tok))) := by
  have hc : containsSub trendMarker raw.data = true := by simp [containsSub, h]
  simp only [extract_trend, hc, if_true]
  rw [nthPiece_splitSub_one trendMarker raw.data rest (by decide) h]

/-- Limit extraction when the marker occurs. -/
theorem extract_limit_of_afterFirst (raw : String) (rest : List Char)
    (h : afterFirst limitMarker raw.data = some rest) :
    extract_limit raw =
      (match nthPiece (tokens (pyStrip (beforeFirst limitMarker rest))) 0 with
       | Except.error e => Except.error e
       | Except.ok tok => Except.ok (String.mk tok)) := by
  have hc : containsSub limitMarker raw.data = true := by simp [containsSub, h]
  simp only [extract_limit, hc, if_true]
  rw [nthPiece_splitSub_one limitMarker raw.data rest (by decide) h]

/-- When every Oracle call returns and every extraction succeeds,
update_symbol_data builds the fresh record, writes it through the store and
returns it. -/
theorem update_symbol_data_success (oracle : Oracle) (nowS : String) (file : StoredFile)
    (symbol : String) (a b c ta tb tc : String)
    (hT : oracle AnalysisKind.Trend symbol = Except.ok a)
    (hL : oracle AnalysisKind.LowerLimit symbol = Except.ok b)
    (hU : oracle AnalysisKind.UpperLimit symbol = Except.ok c)
    (eT : extract_trend a = Except.ok ta)
    (eL : extract_limit b = Except.ok tb)
    (eU : extract_limit c = Except.ok tc) :
    update_symbol_data oracle nowS file symbol =
      { record := some (mkRecord nowS symbol ta tb tc a b c),
        file := StoredFile.modern
          { last_updated := some nowS,
            symbols := upsertSym (load_cache nowS file).1.symbols symbol
              (mkRecord nowS symbol ta tb tc a b c) },
        calls := [AnalysisKind.Trend, AnalysisKind.LowerLimit, AnalysisKind.UpperLimit] } := by
  simp only [update_symbol_data, hT, hL, hU, eT, eL, eU, save_cache]

/-- Whenever update_symbol_data returns a record, that record is the freshly
built one for the requested symbol with the current timestamp, and the file
now holds the loaded document with exactly that one binding replaced. -/
theorem update_symbol_data_record_some (oracle : Oracle) (nowS : String)
    (file : StoredFile) (symbol : String) (r : SymbolRecord)
    (h : (update_symbol_data oracle nowS file symbol).record = some r) :
    r.symbol = some symbol ∧ r.timestamp = some nowS ∧
    (update_symbol_data oracle nowS file symbol).file =
      StoredFile.modern
        { last_updated := some nowS,
          symbols := upsertSym (load_cache nowS file).1.symbols symbol r } := by
  cases hT : oracle AnalysisKind.Trend symbol with
  | error e => simp [update_symbol_data, hT] at h
  | ok a =>
    cases hL : oracle AnalysisKind.LowerLimit symbol with
    | error e => simp [update_symbol_data, hT, hL] at h
    | ok b =>
      cases hU : oracle AnalysisKind.UpperLimit symbol with
      | error e => simp [update_symbol_data, hT, hL, hU] at h
      | ok c =>
        cases eT : extract_trend a with
        | error e => simp [update_symbol_data, hT, hL, hU, eT] at h
        | ok ta =>
          cases eL : extract_limit b with
          | error e => simp [update_symbol_data, hT, hL, hU, eT, eL] at h
          | ok tb =>
            cases eU : extract_limit c with
            | error e => simp [update_symbol_data, hT, hL, hU, eT, eL, eU] at h
            | ok tc =>
              have heq := update_symbol_data_success oracle nowS file symbol
                a b c ta tb tc hT hL hU eT eL eU
              rw [heq] at h
              injection h with h2
              subst h2
              rw [heq]
              exact ⟨rfl, rfl, rfl⟩

/-- Whenever update_symbol_data returns None, the backing file is untouched. -/
theorem update_symbol_data_none_file (oracle : Oracle) (nowS : String)
    (file : StoredFile) (symbol : String)
    (h : (update_symbol_data oracle nowS file symbol).record = none) :
    (update_symbol_data oracle nowS file symbol).file = file := by
  cases hT : oracle AnalysisKind.Trend symbol with
  | error e => simp [update_symbol_data, hT]
  | ok a =>
    cases hL : oracle AnalysisKind.LowerLimit symbol with
    | error e => simp [update_symbol_data, hT, hL]
    | ok b =>
      cases hU : oracle AnalysisKind.UpperLimit symbol with
      | error e => simp [update_symbol_data, hT, hL, hU]
      | ok c =>
        cases eT : extract_trend a with
        | error e => simp [update_symbol_data, hT, hL, hU, eT]
        | ok ta =>
          cases eL : extract_limit b with
          | error e => simp [update_symbol_data, hT, hL, hU, eT, eL]
          | ok tb =>
            cases eU : extract_limit c with
            | error e => simp [update_symbol_data, hT, hL, hU, eT, eL, eU]
            | ok tc => simp [update_symbol_data, hT, hL, hU, eT, eL, eU] at h

/-- Every symbol the cycle tracks is in the list update_all_symbols sweeps. -/
theorem mem_sweepList_of_mem_tracked (doc : CacheDocument) (s : String)
    (h : s ∈ trackedSymbols doc) : s ∈ sweepList doc := by
  cases hke : (doc.symbols.map Prod.fst).isEmpty with
  | true =>
    have hnil : doc.symbols.map Prod.fst = [] := List.isEmpty_iff.mp hke
    simp only [trackedSymbols, hke, if_true] at h
    simp only [sweepList, hnil]
    simpa using h
  | false =>
    simp only [trackedSymbols, hke, Bool.false_eq_true, if_false] at h
    simp only [sweepList]
    cases hc : (doc.symbols.map Prod.fst).contains "GOLDUSD" with
    | true => simpa [hc] using h
    | false => simp only [hc, Bool.false_eq_true, if_false]; exact List.mem_append_left _ h

/-- C1 counterexample: when only the LowerLimit Oracle call raises, the
single try/except of update_symbol_data aborts the whole refresh: no record
is produced or cached and None is returned, rather than a record with
lowerLimit N/A as the claim states. -/
theorem oracle_failure_aborts_refresh_cex :
    update_symbol_data oracleLowerFails nowIso StoredFile.missing "GOLDUSD" =
      { record := none, file := StoredFile.missing,
        calls := [AnalysisKind.Trend, AnalysisKind.LowerLimit] } := by decide

/-- C1 (amended): if any of the three Oracle calls raises, update_symbol_data
catches the exception around the whole refresh, returns None and leaves the
backing file untouched; no sentinel-substituted record is produced. -/
theorem refresh_aborts_on_oracle_error (oracle : Oracle) (nowS : String)
    (file : StoredFile) (symbol : String)
    (h : (∃ e, oracle AnalysisKind.Trend symbol = Except.error e) ∨
         (∃ e, oracle AnalysisKind.LowerLimit symbol = Except.error e) ∨
         (∃ e, oracle AnalysisKind.UpperLimit symbol = Except.error e)) :
    (update_symbol_data oracle nowS file symbol).record = none ∧
    (update_symbol_data oracle nowS file symbol).file = file := by
  cases hT : oracle AnalysisKind.Trend symbol with
  | error e => simp [update_symbol_data, hT]
  | ok a =>
    cases hL : oracle AnalysisKind.LowerLimit symbol with
    | error e => simp [update_symbol_data, hT, hL]
    | ok b =>
      cases hU : oracle AnalysisKind.UpperLimit symbol with
      | error e => simp [update_symbol_data, hT, hL, hU]
      | ok c =>
        exfalso
        rcases h with ⟨e, he⟩ | ⟨e, he⟩ | ⟨e, he⟩
        · rw [hT] at he; exact Except.noConfusion he
        · rw [hL] at he; exact Except.noConfusion he
        · rw [hU] at he; exact Except.noConfusion he

/-- Witness for the amended C1 theorem at a concrete failing Oracle. -/
theorem refresh_aborts_on_oracle_error_witness :
    (update_symbol_data oracleLowerFails nowIso StoredFile.corrupt "EURUSD").record = none ∧
    (update_symbol_data oracleLowerFails nowIso StoredFile.corrupt "EURUSD").file =
      StoredFile.corrupt :=
  refresh_aborts_on_oracle_error oracleLowerFails nowIso StoredFile.corrupt "EURUSD"
    (Or.inr (Or.inl ⟨"ConnectionError: oracle unavailable", rfl⟩))

/-- C2 counterexample: with the marker present but no token after it, both
extractions raise IndexError instead of returning a value. -/
theorem extractor_raises_on_bare_marker_cex :
    extract_trend "TREND:" = Except.error "IndexError" ∧
    extract_limit "LIMIT:   " = Except.error "IndexError" := by decide

/-- C2 (amended): when the marker is absent the Extractor returns the
sentinel and never raises; when the marker is present it raises IndexError
precisely when the stripped segment between the first marker occurrence and
the next one (or the end of text) holds no token, and returns a value
otherwise. -/
theorem extractor_totality_characterization (raw : String) :
    (containsSub trendMarker raw.data = false → extract_trend raw = Except.ok "unknown") ∧
    (containsSub limitMarker raw.data = false → extract_limit raw = Except.ok "N/A") ∧
    (∀ rest, afterFirst trendMarker raw.data = some rest →
      (tokens (pyStrip (beforeFirst trendMarker rest)) = [] →
        extract_trend raw = Except.error "IndexError") ∧
      (tokens (pyStrip (beforeFirst trendMarker rest)) ≠ [] →
        ∃ v, extract_trend raw = Except.ok v)) ∧
    (∀ rest, afterFirst limitMarker raw.data = some rest →
      (tokens (pyStrip (beforeFirst limitMarker rest)) = [] →
        extract_limit raw = Except.error "IndexError") ∧
      (tokens (pyStrip (beforeFirst limitMarker rest)) ≠ [] →
        ∃ v, extract_limit raw = Except.ok v)) := by
  refine ⟨extract_trend_marker_absent raw, extract_limit_marker_absent raw, ?_, ?_⟩
  · intro rest h
    rw [extract_trend_of_afterFirst raw rest h]
    cases hts : tokens (pyStrip (beforeFirst trendMarker rest)) with
    | nil =>
      refine ⟨fun _ => rfl, fun htok => absurd rfl htok⟩
    | cons t ts =>
      refine ⟨fun heq => List.noConfusion heq, fun _ => ⟨String.mk (pyLower t), rfl⟩⟩
  · intro rest h
    rw [extract_limit_of_afterFirst raw rest h]
    cases hts : tokens (pyStrip (beforeFirst limitMarker rest)) with
    | nil =>
      refine ⟨fun _ => rfl, fun htok => absurd rfl htok⟩
    | cons t ts =>
      refine ⟨fun heq => List.noConfusion heq, fun _ => ⟨String.mk t, rfl⟩⟩

/-- Witness for the amended C2 theorem at a concrete marker-bearing text. -/
theorem extractor_totality_characterization_witness :
    ∃ v, extract_trend "TREND: Up" = Except.ok v :=
  ((extractor_totality_characterization "TREND: Up").2.2.1 " Up".data (by decide)).2 (by decide)

/-- C4: is_symbol_cache_valid is true exactly when the record is present,
carries a parseable timestamp and now - timestamp is strictly below one hour;
with concrete boundary instances at 59m59s (valid), exactly 1h (stale), and
for absent record, absent timestamp and unparseable timestamp (all stale). -/
theorem cache_validity_characterization :
    (∀ (sd : Option SymbolRecord) (now : Nat),
      is_symbol_cache_valid sd now = true ↔
        ∃ r ts t, sd = some r ∧ r.timestamp = some ts ∧
          parseIsoTimestamp ts = some t ∧ (now : Int) - (t : Int) < hourMicros) ∧
    is_symbol_cache_valid
      (some { timestamp := some "2026-10-12T11:00:01", symbol := none, trend := none,
              lower_limit := none, upper_limit := none, raw_responses := none })
      nowMicros = true ∧
    is_symbol_cache_valid
      (some { timestamp := some "2026-10-12T11:00:00", symbol := none, trend := none,
              lower_limit := none, upper_limit := none, raw_responses := none })
      nowMicros = false ∧
    is_symbol_cache_valid none nowMicros = false ∧
    is_symbol_cache_valid
      (some { timestamp := none, symbol := some "GOLDUSD", trend := none,
              lower_limit := none, upper_limit := none, raw_responses := none })
      nowMicros = false ∧
    is_symbol_cache_valid
      (some { timestamp := some "not-a-timestamp", symbol := none, trend := none,
              lower_limit := none, upper_limit := none, raw_responses := none })
      nowMicros = false := by
  refine ⟨?_, by decide, by decide, by decide, by decide, by decide⟩
  intro sd now
  cases sd with
  | none => simp [is_symbol_cache_valid]
  | some r =>
    cases hts : r.timestamp with
    | none => simp [is_symbol_cache_valid, hts]
    | some ts =>
      cases hp : parseIsoTimestamp ts with
      | none =>
        simp only [is_symbol_cache_valid, hts, hp]
        constructor
        · intro hfalse; exact absurd hfalse (by simp)
        · rintro ⟨r2, ts2, t2, hr, hts2, hp2, hlt⟩
          injection hr with hr; subst hr
          rw [hts] at hts2; injection hts2 with hts2; subst hts2
          rw [hp] at hp2; exact Option.noConfusion hp2
      | some t =>
        simp only [is_symbol_cache_valid, hts, hp, decide_eq_true_eq]
        constructor
        · intro hlt; exact ⟨r, ts, t, rfl, hts, hp, hlt⟩
        · rintro ⟨r2, ts2, t2, hr, hts2, hp2, hlt⟩
          injection hr with hr; subst hr
          rw [hts] at hts2; injection hts2 with hts2; subst hts2
          rw [hp] at hp2; injection hp2 with hp2; subst hp2
          exact hlt

/-- C7: loading a legacy single-symbol document yields the symbols-keyed form
with the original record under GOLDUSD, persists exactly that migrated form,
and loading the migrated file again returns the same document without a
further write. -/
theorem legacy_migration_correct (old : SymbolRecord) (n1 n2 : String) :
    (load_cache n1 (StoredFile.legacy old)).1.symbols = [("GOLDUSD", old)] ∧
    (load_cache n1 (StoredFile.legacy old)).2 =
      StoredFile.modern (load_cache n1 (StoredFile.legacy old)).1 ∧
    load_cache n2 (load_cache n1 (StoredFile.legacy old)).2 =
      load_cache n1 (StoredFile.legacy old) :=
  ⟨rfl, rfl, load_cache_idem n1 n2 _⟩

/-- C10: a record whose timestamp parses to an instant strictly later than
the current time is reported valid, since its negative age is below the
one-hour bound. -/
theorem future_timestamp_is_valid (r : SymbolRecord) (ts : String) (t : Nat) (now : Nat)
    (hts : r.timestamp = some ts) (hp : parseIsoTimestamp ts = some t)
    (hfut : now < t) :
    is_symbol_cache_valid (some r) now = true := by
  simp only [is_symbol_cache_valid, hts, hp, decide_eq_true_eq]
  have hlt : (now : Int) < (t : Int) := by exact_mod_cast hfut
  have hpos : (0 : Int) < hourMicros := by decide
  omega

/-- Witness for the C10 theorem at a concrete future timestamp. -/
theorem future_timestamp_is_valid_witness :
    is_symbol_cache_valid
      (some { timestamp := some "2026-10-12T13:00:00", symbol := none, trend := none,
              lower_limit := none, upper_limit := none, raw_responses := none })
      nowMicros = true :=
  future_timestamp_is_valid _ "2026-10-12T13:00:00"
    ((parseIsoTimestamp "2026-10-12T13:00:00").getD 0) nowMicros rfl (by decide) (by decide)

/-- C3: in a steady-state cycle of the background refresher, if any tracked
symbol fails the validity check then every tracked symbol is refreshed, and
if every tracked symbol is valid the cycle performs no refresh and leaves
the file untouched. -/
theorem background_sweep_policy (oracle : Oracle) (now : Nat) (nowS : String)
    (file : StoredFile) (tracked : List String)
    (htracked : tracked = trackedSymbols (load_cache nowS file).1) :
    ((∃ s ∈ tracked,
        is_symbol_cache_valid (lookupSym (load_cache nowS file).1.symbols s) now = false) →
      ∀ s ∈ tracked, s ∈ (hourly_cycle oracle now nowS file).refreshed) ∧
    ((∀ s ∈ tracked,
        is_symbol_cache_valid (lookupSym (load_cache nowS file).1.symbols s) now = true) →
      (hourly_cycle oracle now nowS file).refreshed = [] ∧
      (hourly_cycle oracle now nowS file).file = (load_cache nowS file).2) := by
  subst htracked
  constructor
  · intro hex s hs
    have hneed : needsUpdate (load_cache nowS file).1 now = true := by
      unfold needsUpdate
      rw [List.any_eq_true]
      obtain ⟨s0, hs0, hv⟩ := hex
      exact ⟨s0, hs0, by simp [hv]⟩
    simp only [hourly_cycle, hneed, if_true, update_all_symbols, load_cache_idem]
    exact mem_sweepList_of_mem_tracked _ s hs
  · intro hall
    have hneed : needsUpdate (load_cache nowS file).1 now = false := by
      cases hny : needsUpdate (load_cache nowS file).1 now with
      | false => rfl
      | true =>
        exfalso
        unfold needsUpdate at hny
        rw [List.any_eq_true] at hny
        obtain ⟨s0, hs0, hv⟩ := hny
        rw [hall s0 hs0] at hv
        simp at hv
    simp [hourly_cycle, hneed]

/-- Witness for the C3 theorem: with tracked symbols A (fresh) and B (stale),
the cycle refreshes both A and B. -/
theorem background_sweep_policy_witness :
    "A" ∈ (hourly_cycle goodOracle nowMicros nowIso (StoredFile.modern docAB)).refreshed ∧
    "B" ∈ (hourly_cycle goodOracle nowMicros nowIso (StoredFile.modern docAB)).refreshed :=
  ⟨(background_sweep_policy goodOracle nowMicros nowIso (StoredFile.modern docAB)
      ["A", "B"] (by decide)).1 ⟨"B", by decide, by decide⟩ "A" (by decide),
   (background_sweep_policy goodOracle nowMicros nowIso (StoredFile.modern docAB)
      ["A", "B"] (by decide)).1 ⟨"B", by decide, by decide⟩ "B" (by decide)⟩

/-- C5 counterexample: on an empty store with an Oracle whose Trend reply is
the bare marker, get_symbol_data_cached makes the three Oracle calls but the
trend extraction raises, so nothing is persisted and None is returned,
contradicting the claim that a record is always persisted and returned on a
miss. -/
theorem get_or_refresh_extraction_failure_cex :
    get_symbol_data_cached oracleBareTrend nowMicros nowIso StoredFile.missing "EURUSD" =
      { record := none, file := StoredFile.missing,
        calls := [AnalysisKind.Trend, AnalysisKind.LowerLimit, AnalysisKind.UpperLimit] } := by
  decide

/-- C5 (amended): on a validity hit the stored record is returned with no
Oracle call; on a miss the three Oracle calls are made in kind order and,
provided every call returns and every extraction succeeds, a fresh record
carrying the symbol and the current timestamp is persisted and returned;
dict assignment makes the persisted document map the symbol to that record. -/
theorem get_or_refresh_characterization (oracle : Oracle) (now : Nat) (nowS : String)
    (file : StoredFile) (symbol : String) :
    (is_symbol_cache_valid (lookupSym (load_cache nowS file).1.symbols symbol) now = true →
      get_symbol_data_cached oracle now nowS file symbol =
        { record := lookupSym (load_cache nowS file).1.symbols symbol,
          file := (load_cache nowS file).2, calls := [] }) ∧
    (is_symbol_cache_valid (lookupSym (load_cache nowS file).1.symbols symbol) now = false →
      ∀ a b c ta tb tc,
        oracle AnalysisKind.Trend symbol = Except.ok a →
        oracle AnalysisKind.LowerLimit symbol = Except.ok b →
        oracle AnalysisKind.UpperLimit symbol = Except.ok c →
        extract_trend a = Except.ok ta →
        extract_limit b = Except.ok tb →
        extract_limit c = Except.ok tc →
        get_symbol_data_cached oracle now nowS file symbol =
          { record := some (mkRecord nowS symbol ta tb tc a b c),
            file := StoredFile.modern
              { last_updated := some nowS,
                symbols := upsertSym (load_cache nowS file).1.symbols symbol
                  (mkRecord nowS symbol ta tb tc a b c) },
            calls := [AnalysisKind.Trend, AnalysisKind.LowerLimit, AnalysisKind.UpperLimit] }) ∧
    (∀ (m : List (String × SymbolRecord)) (k : String) (v : SymbolRecord),
      lookupSym (upsertSym m k v) k = some v) := by
  refine ⟨?_, ?_, fun m k v => lookup_upsert_self m k v⟩
  · intro hvalid
    simp [get_symbol_data_cached, hvalid]
  · intro hmiss a b c ta tb tc hT hL hU eT eL eU
    have hupd := update_symbol_data_success oracle nowS (load_cache nowS file).2 symbol
      a b c ta tb tc hT hL hU eT eL eU
    rw [load_cache_idem] at hupd
    simp [get_symbol_data_cached, hmiss, hupd]

/-- Witness for the amended C5 theorem: a miss on an empty store with a
well-behaved Oracle makes exactly the three calls and persists the record
under EURUSD. -/
theorem get_or_refresh_characterization_witness :
    get_symbol_data_cached goodOracle nowMicros nowIso StoredFile.missing "EURUSD" =
      { record := some (mkRecord nowIso "EURUSD" "bullish" "$2300.50" "$2400.00"
          "TREND: Bullish" "LIMIT: $2300.50" "LIMIT: $2400.00"),
        file := StoredFile.modern
          { last_updated := some nowIso,
            symbols := [("EURUSD", mkRecord nowIso "EURUSD" "bullish" "$2300.50" "$2400.00"
              "TREND: Bullish" "LIMIT: $2300.50" "LIMIT: $2400.00")] },
        calls := [AnalysisKind.Trend, AnalysisKind.LowerLimit, AnalysisKind.UpperLimit] } :=
  (get_or_refresh_characterization goodOracle nowMicros nowIso StoredFile.missing
      "EURUSD").2.1 (by decide) "TREND: Bullish" "LIMIT: $2300.50" "LIMIT: $2400.00"
    "bullish" "$2300.50" "$2400.00" rfl rfl rfl (by decide) (by decide) (by decide)

/-- C6 counterexample: with a fresh GOLDUSD record cached, the lowercase
argument goldusd is not normalized: the lookup misses, the Oracle is invoked,
and the new record is persisted under the lowercase key goldusd while the
GOLDUSD entry stays, contradicting the claimed uppercase normalization. -/
theorem no_uppercase_normalization_cex :
    get_symbol_data_cached goodOracle nowMicros nowIso (StoredFile.modern goldDoc) "goldusd" =
      { record := some (mkRecord nowIso "goldusd" "bullish" "$2300.50" "$2400.00"
          "TREND: Bullish" "LIMIT: $2300.50" "LIMIT: $2400.00"),
        file := StoredFile.modern
          { last_updated := some nowIso,
            symbols := [("GOLDUSD", freshGoldRecord),
              ("goldusd", mkRecord nowIso "goldusd" "bullish" "$2300.50" "$2400.00"
                "TREND: Bullish" "LIMIT: $2300.50" "LIMIT: $2400.00")] },
        calls := [AnalysisKind.Trend, AnalysisKind.LowerLimit, AnalysisKind.UpperLimit] } ∧
    ("goldusd" : String) ≠ "GOLDUSD" := by
  constructor
  · decide
  · decide

/-- C6 (amended): get_symbol_data_cached performs no case normalization: the
symbol is used exactly as given both for the cache lookup and, on a refresh
that returns a record, as the key under which the record is persisted and as
the symbol field of that record (entries under other keys are untouched). -/
theorem symbol_used_verbatim (oracle : Oracle) (now : Nat) (nowS : String)
    (doc : CacheDocument) (symbol : String) :
    (is_symbol_cache_valid (lookupSym doc.symbols symbol) now = true →
      (get_symbol_data_cached oracle now nowS (StoredFile.modern doc) symbol).record =
        lookupSym doc.symbols symbol ∧
      (get_symbol_data_cached oracle now nowS (StoredFile.modern doc) symbol).calls = []) ∧
    (∀ r, (get_symbol_data_cached oracle now nowS (StoredFile.modern doc) symbol).record =
        some r →
      ∃ doc2,
        (get_symbol_data_cached oracle now nowS (StoredFile.modern doc) symbol).file =
          StoredFile.modern doc2 ∧
        lookupSym doc2.symbols symbol = some r ∧
        ∀ t, t ≠ symbol → lookupSym doc2.symbols t = lookupSym doc.symbols t) ∧
    (∀ r, (get_symbol_data_cached oracle now nowS (StoredFile.modern doc) symbol).record =
        some r →
      (get_symbol_data_cached oracle now nowS (StoredFile.modern doc) symbol).calls ≠ [] →
      r.symbol = some symbol ∧ r.timestamp = some nowS) := by
  have hload : load_cache nowS (StoredFile.modern doc) = (doc, StoredFile.modern doc) := rfl
  refine ⟨?_, ?_, ?_⟩
  · intro hvalid
    simp [get_symbol_data_cached, hload, hvalid]
  · intro r hr
    cases hvalid : is_symbol_cache_valid (lookupSym doc.symbols symbol) now with
    | true =>
      simp only [get_symbol_data_cached, hload, hvalid, if_true] at hr ⊢
      exact ⟨doc, rfl, hr, fun t _ => rfl⟩
    | false =>
      simp only [get_symbol_data_cached, hload, hvalid, Bool.false_eq_true, if_false] at hr ⊢
      obtain ⟨hs, hts, hfile⟩ :=
        update_symbol_data_record_some oracle nowS (StoredFile.modern doc) symbol r hr
      rw [hload] at hfile
      refine ⟨_, hfile, lookup_upsert_self _ _ _, fun t ht => lookup_upsert_other _ _ _ t ht⟩
  · intro r hr hcalls
    cases hvalid : is_symbol_cache_valid (lookupSym doc.symbols symbol) now with
    | true =>
      simp only [get_symbol_data_cached, hload, hvalid, if_true] at hcalls
      exact absurd rfl hcalls
    | false =>
      simp only [get_symbol_data_cached, hload, hvalid, Bool.false_eq_true, if_false] at hr
      obtain ⟨hs, hts, _⟩ :=
        update_symbol_data_record_some oracle nowS (StoredFile.modern doc) symbol r hr
      exact ⟨hs, hts⟩

/-- Witness for the amended C6 theorem at a concrete lowercase symbol. -/
theorem symbol_used_verbatim_witness :
    ∃ doc2,
      (get_symbol_data_cached goodOracle nowMicros nowIso (StoredFile.modern goldDoc)
        "goldusd").file = StoredFile.modern doc2 ∧
      lookupSym doc2.symbols "goldusd" = some (mkRecord nowIso "goldusd" "bullish"
        "$2300.50" "$2400.00" "TREND: Bullish" "LIMIT: $2300.50" "LIMIT: $2400.00") ∧
      ∀ t, t ≠ "goldusd" → lookupSym doc2.symbols t = lookupSym goldDoc.symbols t :=
  (symbol_used_verbatim goodOracle nowMicros nowIso goldDoc "goldusd").2.1
    (mkRecord nowIso "goldusd" "bullish" "$2300.50" "$2400.00"
      "TREND: Bullish" "LIMIT: $2300.50" "LIMIT: $2400.00") (by decide)

/-- C8 counterexample: on text where the first token after the first TREND:
occurrence itself contains a second TREND: occurrence, the spec-worded rule
yields bulltrend:ish while the code, which splits on every occurrence and
takes piece one, yields bull — so the claimed rule does not describe the
code for every raw text. -/
theorem extractor_first_token_divergence_cex :
    specTrendExtraction "TREND: BullTREND:ish" = some "bulltrend:ish" ∧
    extract_trend "TREND: BullTREND:ish" = Except.ok "bull" ∧
    ("bull" : String) ≠ "bulltrend:ish" := by
  refine ⟨by decide, by decide, by decide⟩

/-- C8 (amended): extraction takes the first whitespace-delimited token of
the text between the first marker occurrence and the next one (or the end of
text): lower-cased for Trend, preserved verbatim for the limits; the
sentinels unknown and N/A are returned when the marker is absent; and the
concrete texts of the claim evaluate accordingly, with $1234.56 intact. -/
theorem extractor_value_characterization :
    (∀ (raw : String) (rest t : List Char) (ts : List (List Char)),
        afterFirst trendMarker raw.data = some rest →
        tokens (pyStrip (beforeFirst trendMarker rest)) = t :: ts →
        extract_trend raw = Except.ok (String.mk (pyLower t))) ∧
    (∀ (raw : String) (rest t : List Char) (ts : List (List Char)),
        afterFirst limitMarker raw.data = some rest →
        tokens (pyStrip (beforeFirst limitMarker rest)) = t :: ts →
        extract_limit raw = Except.ok (String.mk t)) ∧
    (∀ raw : String, containsSub trendMarker raw.data = false →
        extract_trend raw = Except.ok "unknown") ∧
    (∀ raw : String, containsSub limitMarker raw.data = false →
        extract_limit raw = Except.ok "N/A") ∧
    extract_trend "Analysis:\nTREND: Bullish\nend" = Except.ok "bullish" ∧
    extract_limit "LIMIT: $1234.56" = Except.ok "$1234.56" := by
  refine ⟨?_, ?_, fun raw h => extract_trend_marker_absent raw h,
    fun raw h => extract_limit_marker_absent raw h, by decide, by decide⟩
  · intro raw rest t ts h htok
    rw [extract_trend_of_afterFirst raw rest h, htok]
    rfl
  · intro raw rest t ts h htok
    rw [extract_limit_of_afterFirst raw rest h, htok]
    rfl

/-- Witness for the amended C8 theorem at a concrete marker-bearing text. -/
theorem extractor_value_characterization_witness :
    extract_trend "TREND: Bearish momentum" = Except.ok "bearish" :=
  extractor_value_characterization.1 "TREND: Bearish momentum" " Bearish momentum".data
    "Bearish".data ["momentum".data] (by decide) (by decide)

/-- C9: in a sequential execution, the document persisted by a refresh that
returns a record maps every symbol other than the refreshed one to exactly
the record the preceding load returned for it, and maps the refreshed symbol
to the brand-new record. -/
theorem upsert_preserves_other_symbols (oracle : Oracle) (nowS : String)
    (file : StoredFile) (symbol : String) (r : SymbolRecord)
    (h : (update_symbol_data oracle nowS file symbol).record = some r) :
    ∃ doc2, (update_symbol_data oracle nowS file symbol).file = StoredFile.modern doc2 ∧
      lookupSym doc2.symbols symbol = some r ∧
      ∀ t, t ≠ symbol →
        lookupSym doc2.symbols t = lookupSym (load_cache nowS file).1.symbols t := by
  obtain ⟨hs, hts, hfile⟩ := update_symbol_data_record_some oracle nowS file symbol r h
  exact ⟨_, hfile, lookup_upsert_self _ _ _, fun t ht => lookup_upsert_other _ _ _ t ht⟩

/-- Witness for the C9 theorem: refreshing EURUSD leaves the GOLDUSD entry
exactly as the preceding load returned it. -/
theorem upsert_preserves_other_symbols_witness :
    ∃ doc2, (update_symbol_data goodOracle nowIso (StoredFile.modern goldDoc)
        "EURUSD").file = StoredFile.modern doc2 ∧
      lookupSym doc2.symbols "EURUSD" = some (mkRecord nowIso "EURUSD" "bullish"
        "$2300.50" "$2400.00" "TREND: Bullish" "LIMIT: $2300.50" "LIMIT: $2400.00") ∧
      ∀ t, t ≠ "EURUSD" →
        lookupSym doc2.symbols t =
          lookupSym (load_cache nowIso (StoredFile.modern goldDoc)).1.symbols t :=
  upsert_preserves_other_symbols goodOracle nowIso (StoredFile.modern goldDoc) "EURUSD"
    (mkRecord nowIso "EURUSD" "bullish" "$2300.50" "$2400.00"
      "TREND: Bullish" "LIMIT: $2300.50" "LIMIT: $2400.00") (by decide)
